import Mathlib

/-!
Shallow embedding of the boxmonitor probing engine (src/monitor.rs), with
the configuration data model from src/config.rs. Rust `f64` latencies are
modelled as exact rationals `ℚ`; `VecDeque` as `List` (front at the head,
`pop_front` = `tail`, `push_back` = `++ [·]`); wall-clock timestamps as `Nat`.
Probe functions that perform network I/O are modelled as functions of an
explicit environment recording the outcome of each external call, mirroring
the source's control flow on those outcomes; a Rust panic (`unwrap` on `Err`)
is modelled as `Option.none`.
-/

/-- `config.rs`: `Target { ip, name, ssh_port, ssh_user }`. -/
structure Target where
  ip : String
  name : Option String
  ssh_port : Option Nat
  ssh_user : Option String
deriving DecidableEq

/-- `monitor.rs`: `PingResult { timestamp, latency_ms, success }`. -/
structure PingResult where
  timestamp : Nat
  latency_ms : Option ℚ
  success : Bool
deriving DecidableEq

/-- `monitor.rs`: `SshResult { timestamp, connection_time_ms, success }`. -/
structure SshResult where
  timestamp : Nat
  connection_time_ms : Option ℚ
  success : Bool
deriving DecidableEq

/-- `monitor.rs`: `Statistics` with all latency summary fields. -/
structure Statistics where
  mean : ℚ
  median : ℚ
  min : ℚ
  max : ℚ
  p25 : ℚ
  p75 : ℚ
  p90 : ℚ
  p95 : ℚ
  p99 : ℚ
  success_rate : ℚ
  total_count : Nat
deriving DecidableEq

/-- `monitor.rs`: `TargetStats { target, ping_history, ssh_history, ping_stats, ssh_stats }`. -/
structure TargetStats where
  target : Target
  ping_history : List PingResult
  ssh_history : List SshResult
  ping_stats : Option Statistics
  ssh_stats : Option Statistics
deriving DecidableEq

/-- Insert one element into an ascending-sorted list (helper of `sortAsc`). -/
def insertSorted (x : ℚ) : List ℚ → List ℚ
  | [] => [x]
  | y :: ys => if x ≤ y then x :: y :: ys else y :: insertSorted x ys

/-- Models `sorted_values.sort_by(|a, b| a.partial_cmp(b).unwrap())`: a stable
ascending sort of the samples (on `ℚ` the partial comparison is total). -/
def sortAsc : List ℚ → List ℚ
  | [] => []
  | x :: xs => insertSorted x (sortAsc xs)

/-- `monitor.rs` `percentile(sorted_values, p)`: empty input gives `0.0`; a
single sample is returned for every `p`; otherwise linear interpolation at
rank `(p/100)·(n−1)`. `index.floor() as usize` is `Int.toNat ∘ Int.floor`
(Rust float-to-usize casts saturate at 0); indexing is total via `getD`
(in the source the indices are in bounds for the percentiles used). -/
def percentile (sorted_values : List ℚ) (p : ℚ) : ℚ :=
  if sorted_values = [] then 0
  else if sorted_values.length = 1 then sorted_values.getD 0 0
  else
    let index : ℚ := (p / 100) * ((sorted_values.length : ℚ) - 1)
    let lower : Nat := (⌊index⌋).toNat
    let upper : Nat := (⌈index⌉).toNat
    if lower = upper then sorted_values.getD lower 0
    else
      let weight : ℚ := index - (lower : ℚ)
      sorted_values.getD lower 0 * (1 - weight) + sorted_values.getD upper 0 * weight

/-- `monitor.rs` `calculate_statistics(values, total_count)`. The `values` are
the latency-carrying samples; `total_count` is the full window length. -/
def calculateStatistics (values : List ℚ) (total_count : Nat) : Statistics :=
  let sorted_values := sortAsc values
  let mean := values.sum / (values.length : ℚ)
  let median := percentile sorted_values 50
  let mn := sorted_values.headD 0
  let mx := sorted_values.getLastD 0
  let success_rate := ((values.length : ℚ) / (total_count : ℚ)) * 100
  { mean := mean
    median := median
    min := mn
    max := mx
    p25 := percentile sorted_values 25
    p75 := percentile sorted_values 75
    p90 := percentile sorted_values 90
    p95 := percentile sorted_values 95
    p99 := percentile sorted_values 99
    success_rate := success_rate
    total_count := total_count }

/-- `monitor.rs` `TargetStats::update_ping_stats`: recompute `ping_stats` from
the successful (latency-carrying) pings, but only when there is at least one;
otherwise `ping_stats` is left as it was. -/
def updatePingStats (s : TargetStats) : TargetStats :=
  let successful_pings := s.ping_history.filterMap (fun r => r.latency_ms)
  if successful_pings.isEmpty then s
  else { s with ping_stats := some (calculateStatistics successful_pings s.ping_history.length) }

/-- `monitor.rs` `TargetStats::update_ssh_stats`: SSH analogue of
`updatePingStats`. -/
def updateSshStats (s : TargetStats) : TargetStats :=
  let successful_ssh := s.ssh_history.filterMap (fun r => r.connection_time_ms)
  if successful_ssh.isEmpty then s
  else { s with ssh_stats := some (calculateStatistics successful_ssh s.ssh_history.length) }

/-- `monitor.rs` `TargetStats::add_ping_result`: pop the front when at or above
`max_history`, push the new result at the back, then update the cached stats. -/
def addPingResult (s : TargetStats) (result : PingResult) (max_history : Nat) : TargetStats :=
  let h := if max_history ≤ s.ping_history.length then s.ping_history.tail else s.ping_history
  updatePingStats { s with ping_history := h ++ [result] }

/-- `monitor.rs` `TargetStats::add_ssh_result`: SSH analogue of
`addPingResult`. -/
def addSshResult (s : TargetStats) (result : SshResult) (max_history : Nat) : TargetStats :=
  let h := if max_history ≤ s.ssh_history.length then s.ssh_history.tail else s.ssh_history
  updateSshStats { s with ssh_history := h ++ [result] }

/-- `monitor.rs` `TargetStats::new`: empty histories, no cached stats
(`history_size` only pre-allocates capacity in the source). -/
def TargetStats.new (target : Target) (history_size : Nat) : TargetStats :=
  { target := target
    ping_history := []
    ssh_history := []
    ping_stats := none
    ssh_stats := none }

/-- Folding a sequence of ping results into a `TargetStats` by repeated
`add_ping_result` calls with a fixed `max_history`, in order. -/
def addPingResults (s : TargetStats) (rs : List PingResult) (max_history : Nat) : TargetStats :=
  rs.foldl (fun a r => addPingResult a r max_history) s

/-- Folding a sequence of SSH results into a `TargetStats` by repeated
`add_ssh_result` calls with a fixed `max_history`, in order. -/
def addSshResults (s : TargetStats) (rs : List SshResult) (max_history : Nat) : TargetStats :=
  rs.foldl (fun a r => addSshResult a r max_history) s

/-- Reference percentile definition, written from the specification's words:
sort the samples ascending; rank = `(p/100)·(n−1)`; if the rank is an integer
return that element, otherwise interpolate between the floor and ceiling
elements weighted by the fractional part; `n = 1` returns the single value;
`n = 0` returns `0.0`. Stated on the raw samples (the spec sorts them itself). -/
def percentileRef (samples : List ℚ) (p : ℚ) : ℚ :=
  let sorted := sortAsc samples
  let n := samples.length
  if n = 0 then 0
  else if n = 1 then sorted.getD 0 0
  else
    let rank : ℚ := (p / 100) * ((n : ℚ) - 1)
    if (⌊rank⌋ : ℚ) = rank then sorted.getD (⌊rank⌋).toNat 0
    else
      let frac : ℚ := rank - (⌊rank⌋ : ℚ)
      sorted.getD (⌊rank⌋).toNat 0 * (1 - frac) + sorted.getD (⌈rank⌉).toNat 0 * frac

/-- Environment of one `ping_target` call: the outcome of each external
operation the source performs, in source order. `parsedAddr` is the result of
`ip.parse::<IpAddr>()` (`none` = parse error), `clientNew` the result of
`surge_ping::Client::new` (`none` = error), `pingOk` whether
`pinger.ping(..)` returned `Ok`, `elapsed` the measured round-trip in ms,
`now` the timestamp taken at the start. -/
structure PingEnv where
  now : Nat
  parsedAddr : Option Unit
  clientNew : Option Unit
  pingOk : Bool
  elapsed : ℚ

/-- `monitor.rs` `ping_target`: every early-exit arm returns a failure
`PingResult` with no latency; only an `Ok` ping reply yields success with the
measured latency. -/
def pingTarget (env : PingEnv) : PingResult :=
  match env.parsedAddr with
  | none => { timestamp := env.now, latency_ms := none, success := false }
  | some _ =>
    match env.clientNew with
    | none => { timestamp := env.now, latency_ms := none, success := false }
    | some _ =>
      if env.pingOk then
        { timestamp := env.now, latency_ms := some env.elapsed, success := true }
      else
        { timestamp := env.now, latency_ms := none, success := false }

/-- Environment of one `ssh_test` call: `timedOut` is whether
`tokio::time::timeout` elapsed before the inner future completed,
`tcpConnect` the outcome of `TcpStream::connect`, `sessionNew` the outcome of
`ssh2::Session::new()` (`none` makes the source's `.unwrap()` panic),
`handshakeOk` whether `session.handshake()` returned `Ok`, `elapsed` the
measured connection time in ms. -/
structure SshEnv where
  now : Nat
  timedOut : Bool
  tcpConnect : Option Unit
  sessionNew : Option Unit
  handshakeOk : Bool
  elapsed : ℚ

/-- `monitor.rs` `ssh_test`: timeout, connect failure and handshake failure
all produce a failure `SshResult`; a completed handshake within the timeout
produces success with the measured time; `ssh2::Session::new().unwrap()`
panics when session creation fails (modelled as `none`). -/
def sshTest (env : SshEnv) : Option SshResult :=
  if env.timedOut then
    some { timestamp := env.now, connection_time_ms := none, success := false }
  else
    match env.tcpConnect with
    | none => some { timestamp := env.now, connection_time_ms := none, success := false }
    | some _ =>
      match env.sessionNew with
      | none => none
      | some _ =>
        if env.handshakeOk then
          some { timestamp := env.now, connection_time_ms := some env.elapsed, success := true }
        else
          some { timestamp := env.now, connection_time_ms := none, success := false }

/-- `monitor.rs` `run_ssh_cycle` eligibility test:
`target.ssh_port.is_some() && target.ssh_user.is_some()`. -/
def sshEligible (t : Target) : Bool :=
  t.ssh_port.isSome && t.ssh_user.isSome

/-- The spawned handles of one SSH cycle: one `(index, ssh_test result)` pair
per SSH-eligible target, in target order (`env i` is the I/O environment of
target `i`'s probe; a `none` probe outcome is a panicked task whose join
fails). -/
def sshHandles (targets : List TargetStats) (env : Nat → SshEnv) :
    List (Nat × Option SshResult) :=
  (targets.enum.filter (fun p => sshEligible p.2.target)).map (fun p => (p.1, sshTest (env p.1)))

/-- `monitor.rs` `run_ssh_cycle`: spawn one probe per eligible target, then
fold each successfully joined result into its target via `add_ssh_result`
(`if let Ok(..) = handle.await` drops panicked tasks; `get_mut(index)` is the
in-bounds `List.modify`). -/
def runSshCycle (targets : List TargetStats) (env : Nat → SshEnv) (history_size : Nat) :
    List TargetStats :=
  (sshHandles targets env).foldl
    (fun acc p =>
      match p.2 with
      | some r => acc.modify (fun ts => addSshResult ts r history_size) p.1
      | none => acc)
    targets

/-- One append-with-eviction step on a plain history list (the history part of
`add_ping_result` / `add_ssh_result`): pop the front when at or above capacity
`C`, then push at the back. -/
def pushEvict {α : Type} (C : Nat) (h : List α) (r : α) : List α :=
  (if C ≤ h.length then h.tail else h) ++ [r]

/-- Folding a whole sequence of results into a history list by repeated
`pushEvict` steps. -/
def runHist {α : Type} (C : Nat) (h : List α) (rs : List α) : List α :=
  rs.foldl (pushEvict C) h

/-- The last `C` elements of a list, in order. -/
def takeLast {α : Type} (C : Nat) (l : List α) : List α :=
  l.drop (l.length - C)

/-- A concrete target with no SSH configuration. -/
def tFix : Target :=
  { ip := "203.0.113.7", name := none, ssh_port := none, ssh_user := none }

/-- A concrete SSH-eligible target. -/
def tSshFix : Target :=
  { ip := "203.0.113.8", name := none, ssh_port := some 22, ssh_user := some "ops" }

/-- A concrete failed ping result (no latency). -/
def pingFail : PingResult :=
  { timestamp := 0, latency_ms := none, success := false }

/-- A concrete successful ping result with latency 10 ms. -/
def pingOk10 : PingResult :=
  { timestamp := 0, latency_ms := some 10, success := true }

/-- A concrete successful ping result with latency 30 ms. -/
def pingOk30 : PingResult :=
  { timestamp := 0, latency_ms := some 30, success := true }

/-- A concrete failed SSH result. -/
def sshFail : SshResult :=
  { timestamp := 0, connection_time_ms := none, success := false }

/-- A concrete successful SSH result with connection time 7 ms. -/
def sshOk7 : SshResult :=
  { timestamp := 0, connection_time_ms := some 7, success := true }

/-- An SSH probe environment in which session creation fails (the source's
`ssh2::Session::new().unwrap()` panics): TCP connect succeeds, no timeout. -/
def sshEnvPanic : SshEnv :=
  { now := 0, timedOut := false, tcpConnect := some (), sessionNew := none,
    handshakeOk := true, elapsed := 0 }

/-- An SSH probe environment that times out. -/
def sshEnvTimeout : SshEnv :=
  { now := 0, timedOut := true, tcpConnect := none, sessionNew := none,
    handshakeOk := false, elapsed := 0 }

/-- An SSH probe environment whose handshake completes within the timeout. -/
def sshEnvGood : SshEnv :=
  { now := 4, timedOut := false, tcpConnect := some (), sessionNew := some (),
    handshakeOk := true, elapsed := 7 }

/-- A ping probe environment with an unparsable address. -/
def pingEnvBadAddr : PingEnv :=
  { now := 5, parsedAddr := none, clientNew := some (), pingOk := true, elapsed := 1 }

/-- A ping probe environment with a successful echo reply after 10 ms. -/
def pingEnvGood : PingEnv :=
  { now := 6, parsedAddr := some (), clientNew := some (), pingOk := true, elapsed := 10 }

/-- A concrete two-target monitor state: target 0 is SSH-eligible, target 1
is not. -/
def targetsFix : List TargetStats :=
  [TargetStats.new tSshFix 5, TargetStats.new tFix 5]

/-- A concrete per-target SSH probe environment: every probe completes its
handshake. -/
def envGFix : Nat → SshEnv := fun _ => sshEnvGood

lemma updatePingStats_target (s : TargetStats) : (updatePingStats s).target = s.target := by
  simp only [updatePingStats]
  split <;> rfl

lemma updatePingStats_ping_history (s : TargetStats) :
    (updatePingStats s).ping_history = s.ping_history := by
  simp only [updatePingStats]
  split <;> rfl

lemma updatePingStats_ssh_history (s : TargetStats) :
    (updatePingStats s).ssh_history = s.ssh_history := by
  simp only [updatePingStats]
  split <;> rfl

lemma updatePingStats_ssh_stats (s : TargetStats) :
    (updatePingStats s).ssh_stats = s.ssh_stats := by
  simp only [updatePingStats]
  split <;> rfl

lemma updateSshStats_target (s : TargetStats) : (updateSshStats s).target = s.target := by
  simp only [updateSshStats]
  split <;> rfl

lemma updateSshStats_ssh_history (s : TargetStats) :
    (updateSshStats s).ssh_history = s.ssh_history := by
  simp only [updateSshStats]
  split <;> rfl

lemma updateSshStats_ping_history (s : TargetStats) :
    (updateSshStats s).ping_history = s.ping_history := by
  simp only [updateSshStats]
  split <;> rfl

lemma updateSshStats_ping_stats (s : TargetStats) :
    (updateSshStats s).ping_stats = s.ping_stats := by
  simp only [updateSshStats]
  split <;> rfl

lemma addPingResult_ping_history (s : TargetStats) (r : PingResult) (C : Nat) :
    (addPingResult s r C).ping_history = pushEvict C s.ping_history r := by
  simp only [addPingResult, pushEvict, updatePingStats_ping_history]

lemma addSshResult_ssh_history (s : TargetStats) (r : SshResult) (C : Nat) :
    (addSshResult s r C).ssh_history = pushEvict C s.ssh_history r := by
  simp only [addSshResult, pushEvict, updateSshStats_ssh_history]

/-- Claim C10: `add_ping_result` mutates only the ping fields of a
`TargetStats` (target, `ssh_history`, `ssh_stats` are unchanged), and
`add_ssh_result` mutates only the SSH fields (target, `ping_history`,
`ping_stats` are unchanged). -/
theorem addResult_frame (s : TargetStats) (r : PingResult) (q : SshResult) (C D : Nat) :
    ((addPingResult s r C).target = s.target ∧
     (addPingResult s r C).ssh_history = s.ssh_history ∧
     (addPingResult s r C).ssh_stats = s.ssh_stats) ∧
    ((addSshResult s q D).target = s.target ∧
     (addSshResult s q D).ping_history = s.ping_history ∧
     (addSshResult s q D).ping_stats = s.ping_stats) := by
  refine ⟨⟨?_, ?_, ?_⟩, ⟨?_, ?_, ?_⟩⟩
  · simp only [addPingResult, updatePingStats_target]
  · simp only [addPingResult, updatePingStats_ssh_history]
  · simp only [addPingResult, updatePingStats_ssh_stats]
  · simp only [addSshResult, updateSshStats_target]
  · simp only [addSshResult, updateSshStats_ping_history]
  · simp only [addSshResult, updateSshStats_ping_stats]

/-- Claim C5 (code bug): folding a failed ping result into a fresh
`TargetStats` yields a state that records nothing but the history entry — the
`TargetStats` of `monitor.rs` has no failure log field at all and
`add_ping_result` appends no failure record, although `ui_failure_charts.rs`
reads `target.failure_log`. The full resulting state is exactly the five
fields below. -/
theorem addPingResult_records_no_failure :
    addPingResult (TargetStats.new tFix 3) pingFail 3 =
      { target := tFix
        ping_history := [pingFail]
        ssh_history := []
        ping_stats := none
        ssh_stats := none } := rfl

/-- Claim C6: `ping_target` folds an unparsable address or a failed ping
client construction into a failure `PingResult` (success `false`, no latency)
rather than propagating an error. -/
theorem pingTarget_error_is_failure_result (env : PingEnv)
    (h : env.parsedAddr = none ∨ env.clientNew = none) :
    pingTarget env = { timestamp := env.now, latency_ms := none, success := false } := by
  rcases h with h | h
  · simp only [pingTarget, h]
  · simp only [pingTarget, h]
    cases env.parsedAddr <;> rfl

/-- Witness for `pingTarget_error_is_failure_result` at a concrete
environment with an unparsable address. -/
theorem pingTarget_error_is_failure_result_witness :
    pingTarget pingEnvBadAddr =
      { timestamp := 5, latency_ms := none, success := false } :=
  pingTarget_error_is_failure_result pingEnvBadAddr (Or.inl rfl)

/-- Claim C9: for every result produced by `ping_target` (resp. `ssh_test`),
the success flag is `true` iff the latency (resp. connection-time) field is
present. -/
theorem probe_success_iff_latency_present :
    (∀ env : PingEnv,
      (pingTarget env).success = true ↔ ((pingTarget env).latency_ms).isSome = true) ∧
    (∀ (env : SshEnv) (r : SshResult), sshTest env = some r →
      (r.success = true ↔ r.connection_time_ms.isSome = true)) := by
  constructor
  · intro env
    simp only [pingTarget]
    cases env.parsedAddr <;> cases env.clientNew <;> [skip; skip; skip; cases hb : env.pingOk] <;>
      simp
  · intro env r h
    simp only [sshTest] at h
    by_cases ht : env.timedOut
    · simp only [ht, if_true] at h
      cases h
      simp
    · simp only [ht, if_false, Bool.false_eq_true] at h
      cases htc : env.tcpConnect with
      | none => simp only [htc] at h; cases h; simp
      | some u =>
        simp only [htc] at h
        cases hs : env.sessionNew with
        | none =>
          simp only [hs] at h
          exact Option.noConfusion h
        | some v =>
          simp only [hs] at h
          by_cases hh : env.handshakeOk
          · simp only [hh, if_true] at h; cases h; simp
          · simp only [hh, if_false, Bool.false_eq_true] at h; cases h; simp

/-- Witness for `probe_success_iff_latency_present`: concrete instances at a
successful ping environment and a timed-out SSH environment. -/
theorem probe_success_iff_latency_present_witness :
    ((pingTarget pingEnvGood).success = true ↔
      ((pingTarget pingEnvGood).latency_ms).isSome = true) ∧
    (sshFail.success = true ↔ sshFail.connection_time_ms.isSome = true) :=
  ⟨probe_success_iff_latency_present.1 pingEnvGood,
   probe_success_iff_latency_present.2 sshEnvTimeout sshFail (by simp [sshTest, sshEnvTimeout, sshFail])⟩

/-- Claim C7 counterexample: when TCP connect succeeds but
`ssh2::Session::new()` fails, `ssh_test` does not return any `SshResult` —
the source's `.unwrap()` panics (modelled as `none`), contradicting the claim
that such a probe is recorded with `success = false`. -/
theorem sshTest_session_creation_panics : sshTest sshEnvPanic = none := rfl

/-- Claim C7 (amended): `ssh_test` records timeout, TCP connection failure and
handshake failure as an `SshResult` with `success = false` and no connection
time, and a returned result has `success = true` only when the handshake
completed within the timeout (carrying the measured time); failure to create
the probing session, however, panics instead of returning a result. -/
theorem sshTest_failure_modes (env : SshEnv) :
    (env.timedOut = true →
      sshTest env = some { timestamp := env.now, connection_time_ms := none, success := false }) ∧
    (env.timedOut = false → env.tcpConnect = none →
      sshTest env = some { timestamp := env.now, connection_time_ms := none, success := false }) ∧
    (env.timedOut = false → env.tcpConnect.isSome = true → env.sessionNew.isSome = true →
      env.handshakeOk = false →
      sshTest env = some { timestamp := env.now, connection_time_ms := none, success := false }) ∧
    (env.sessionNew = none → env.timedOut = false → env.tcpConnect.isSome = true →
      sshTest env = none) ∧
    (∀ r : SshResult, sshTest env = some r → r.success = true →
      env.timedOut = false ∧ env.handshakeOk = true ∧
      r.connection_time_ms = some env.elapsed) := by
  refine ⟨?_, ?_, ?_, ?_, ?_⟩
  · intro ht
    simp [sshTest, ht]
  · intro ht htc
    simp [sshTest, ht, htc]
  · intro ht htc hs hh
    rcases Option.isSome_iff_exists.mp htc with ⟨u, hu⟩
    rcases Option.isSome_iff_exists.mp hs with ⟨v, hv⟩
    simp [sshTest, ht, hu, hv, hh]
  · intro hs ht htc
    rcases Option.isSome_iff_exists.mp htc with ⟨u, hu⟩
    simp [sshTest, ht, hu, hs]
  · intro r h hr
    simp only [sshTest] at h
    by_cases ht : env.timedOut
    · simp only [ht, if_true] at h
      cases h
      simp at hr
    · simp only [ht, if_false, Bool.false_eq_true] at h
      cases htc : env.tcpConnect with
      | none =>
        simp only [htc] at h
        cases h
        simp at hr
      | some u =>
        simp only [htc] at h
        cases hsn : env.sessionNew with
        | none =>
          simp only [hsn] at h
          exact Option.noConfusion h
        | some v =>
          simp only [hsn] at h
          by_cases hh : env.handshakeOk
          · simp only [hh, if_true] at h
            cases h
            exact ⟨by simpa using ht, hh, rfl⟩
          · simp only [hh, if_false, Bool.false_eq_true] at h
            cases h
            simp at hr

/-- Witness for `sshTest_failure_modes`: concrete instances at a timed-out
environment, and the success clause at a completed-handshake environment. -/
theorem sshTest_failure_modes_witness :
    (sshTest sshEnvTimeout =
      some { timestamp := 0, connection_time_ms := none, success := false }) ∧
    (sshEnvGood.timedOut = false ∧ sshEnvGood.handshakeOk = true ∧
      ({ timestamp := 4, connection_time_ms := some 7, success := true } : SshResult).connection_time_ms =
        some sshEnvGood.elapsed) :=
  ⟨(sshTest_failure_modes sshEnvTimeout).1 rfl,
   (sshTest_failure_modes sshEnvGood).2.2.2.2
     { timestamp := 4, connection_time_ms := some 7, success := true } rfl rfl⟩

lemma takeLast_of_le {α : Type} {C : Nat} {l : List α} (h : l.length ≤ C) :
    takeLast C l = l := by
  simp [takeLast, Nat.sub_eq_zero_of_le h]

lemma takeLast_append_right {α : Type} {C : Nat} (pre m : List α) (h : C ≤ m.length) :
    takeLast C (pre ++ m) = takeLast C m := by
  simp only [takeLast, List.length_append]
  rw [Nat.add_sub_assoc h, List.drop_append]

lemma length_takeLast {α : Type} (C : Nat) (l : List α) :
    (takeLast C l).length = l.length - (l.length - C) := by
  simp [takeLast]

lemma pushEvict_eq_takeLast {α : Type} {C : Nat} (hC : 1 ≤ C) {h : List α} (r : α)
    (hl : h.length ≤ C) : pushEvict C h r = takeLast C (h ++ [r]) := by
  by_cases hc : C ≤ h.length
  · have hlen : h.length = C := Nat.le_antisymm hl hc
    have hge : 1 ≤ h.length := by omega
    simp only [pushEvict, if_pos hc, takeLast, List.length_append, List.length_singleton]
    rw [hlen, Nat.add_sub_cancel_left, List.drop_append_of_le_length (by omega), List.drop_one]
  · have : h.length + 1 ≤ C := by omega
    simp only [pushEvict, if_neg hc, takeLast, List.length_append, List.length_singleton,
      Nat.sub_eq_zero_of_le this, List.drop_zero]

lemma pushEvict_length_le {α : Type} {C : Nat} (hC : 1 ≤ C) {h : List α} (r : α)
    (hl : h.length ≤ C) : (pushEvict C h r).length ≤ C := by
  by_cases hc : C ≤ h.length
  · simp only [pushEvict, if_pos hc, List.length_append, List.length_tail, List.length_singleton]
    omega
  · simp only [pushEvict, if_neg hc, List.length_append, List.length_singleton]
    omega

lemma takeLast_takeLast_append {α : Type} (C : Nat) (l rs : List α) :
    takeLast C (takeLast C l ++ rs) = takeLast C (l ++ rs) := by
  by_cases hl : l.length ≤ C
  · rw [takeLast_of_le hl]
  · have hsplit : l = l.take (l.length - C) ++ takeLast C l := (List.take_append_drop _ l).symm
    have hlen : C ≤ (takeLast C l ++ rs).length := by
      rw [List.length_append, length_takeLast]
      omega
    calc takeLast C (takeLast C l ++ rs)
        = takeLast C (l.take (l.length - C) ++ (takeLast C l ++ rs)) :=
          (takeLast_append_right _ _ hlen).symm
      _ = takeLast C (l ++ rs) := by rw [← List.append_assoc, ← hsplit]

lemma runHist_eq_takeLast {α : Type} {C : Nat} (hC : 1 ≤ C) :
    ∀ (rs h : List α), h.length ≤ C → runHist C h rs = takeLast C (h ++ rs)
  | [], h, hl => by simp [runHist, takeLast_of_le hl]
  | r :: rs, h, hl => by
    have step : runHist C h (r :: rs) = runHist C (pushEvict C h r) rs := rfl
    rw [step, runHist_eq_takeLast hC rs _ (pushEvict_length_le hC r hl),
      pushEvict_eq_takeLast hC r hl, takeLast_takeLast_append]
    simp

lemma addPingResults_ping_history (s : TargetStats) (rs : List PingResult) (C : Nat) :
    (addPingResults s rs C).ping_history = runHist C s.ping_history rs := by
  induction rs generalizing s with
  | nil => rfl
  | cons r rs ih =>
    have h1 : addPingResults s (r :: rs) C = addPingResults (addPingResult s r C) rs C := rfl
    have h2 : runHist C s.ping_history (r :: rs) =
        runHist C (pushEvict C s.ping_history r) rs := rfl
    rw [h1, h2, ih, addPingResult_ping_history]

lemma addSshResults_ssh_history (s : TargetStats) (rs : List SshResult) (C : Nat) :
    (addSshResults s rs C).ssh_history = runHist C s.ssh_history rs := by
  induction rs generalizing s with
  | nil => rfl
  | cons r rs ih =>
    have h1 : addSshResults s (r :: rs) C = addSshResults (addSshResult s r C) rs C := rfl
    have h2 : runHist C s.ssh_history (r :: rs) =
        runHist C (pushEvict C s.ssh_history r) rs := rfl
    rw [h1, h2, ih, addSshResult_ssh_history]

/-- Claim C1 counterexample: with configured capacity `C = 0`, inserting
`N = 1 > 0` results leaves a history of length 1, not `C = 0` — the
`len >= max_history` pop-one-then-push step can exceed a zero capacity. -/
theorem fifo_capacity_zero_counterexample :
    (addPingResult (TargetStats.new tFix 0) pingFail 0).ping_history.length = 1 ∧
    (addPingResult (TargetStats.new tFix 0) pingFail 0).ping_history.length ≠ 0 := by
  constructor
  · rfl
  · intro h
    exact Nat.one_ne_zero h

/-- Claim C1 (amended, capacity at least 1): for every history (ping or SSH)
with configured capacity `C ≥ 1`, one insertion preserves `length ≤ C`, and
after inserting `N > C` results in order the retained history is exactly the
last `C` inserted results in insertion order (hence has length `C`) — strict
FIFO eviction of the oldest entries. -/
theorem fifo_eviction (C : Nat) (hC : 1 ≤ C) :
    (∀ (s : TargetStats) (r : PingResult), s.ping_history.length ≤ C →
        (addPingResult s r C).ping_history.length ≤ C) ∧
    (∀ (s : TargetStats) (q : SshResult), s.ssh_history.length ≤ C →
        (addSshResult s q C).ssh_history.length ≤ C) ∧
    (∀ (s : TargetStats) (rs : List PingResult), s.ping_history.length ≤ C →
        C < rs.length →
        (addPingResults s rs C).ping_history = rs.drop (rs.length - C) ∧
        (addPingResults s rs C).ping_history.length = C) ∧
    (∀ (s : TargetStats) (qs : List SshResult), s.ssh_history.length ≤ C →
        C < qs.length →
        (addSshResults s qs C).ssh_history = qs.drop (qs.length - C) ∧
        (addSshResults s qs C).ssh_history.length = C) := by
  refine ⟨?_, ?_, ?_, ?_⟩
  · intro s r hl
    rw [addPingResult_ping_history]
    exact pushEvict_length_le hC r hl
  · intro s q hl
    rw [addSshResult_ssh_history]
    exact pushEvict_length_le hC q hl
  · intro s rs hl hlen
    have h1 : (addPingResults s rs C).ping_history = takeLast C rs := by
      rw [addPingResults_ping_history, runHist_eq_takeLast hC rs _ hl,
        takeLast_append_right _ _ (Nat.le_of_lt hlen)]
    refine ⟨h1, ?_⟩
    rw [h1, length_takeLast]
    omega
  · intro s qs hl hlen
    have h1 : (addSshResults s qs C).ssh_history = takeLast C qs := by
      rw [addSshResults_ssh_history, runHist_eq_takeLast hC qs _ hl,
        takeLast_append_right _ _ (Nat.le_of_lt hlen)]
    refine ⟨h1, ?_⟩
    rw [h1, length_takeLast]
    omega

/-- Witness for `fifo_eviction` at capacity 2 with three inserted ping
results: the retained history is the last two, in order. -/
theorem fifo_eviction_witness :
    (addPingResults (TargetStats.new tFix 2) [pingFail, pingOk10, pingOk30] 2).ping_history =
      [pingFail, pingOk10, pingOk30].drop ([pingFail, pingOk10, pingOk30].length - 2) ∧
    (addPingResults (TargetStats.new tFix 2) [pingFail, pingOk10, pingOk30] 2).ping_history.length = 2 :=
  (fifo_eviction 2 (by decide)).2.2.1 (TargetStats.new tFix 2) [pingFail, pingOk10, pingOk30]
    (by decide) (by decide)

lemma updatePingStats_ping_stats (s : TargetStats) :
    (updatePingStats s).ping_stats =
      if (s.ping_history.filterMap (fun r => r.latency_ms)).isEmpty then s.ping_stats
      else some (calculateStatistics (s.ping_history.filterMap (fun r => r.latency_ms))
        s.ping_history.length) := by
  simp only [updatePingStats]
  split <;> rfl

lemma updateSshStats_ssh_stats (s : TargetStats) :
    (updateSshStats s).ssh_stats =
      if (s.ssh_history.filterMap (fun r => r.connection_time_ms)).isEmpty then s.ssh_stats
      else some (calculateStatistics (s.ssh_history.filterMap (fun r => r.connection_time_ms))
        s.ssh_history.length) := by
  simp only [updateSshStats]
  split <;> rfl

lemma addPingResult_ping_stats (s : TargetStats) (r : PingResult) (C : Nat) :
    (addPingResult s r C).ping_stats =
      if ((pushEvict C s.ping_history r).filterMap (fun x => x.latency_ms)).isEmpty
      then s.ping_stats
      else some (calculateStatistics
        ((pushEvict C s.ping_history r).filterMap (fun x => x.latency_ms))
        (pushEvict C s.ping_history r).length) := by
  simp only [addPingResult, updatePingStats_ping_stats, pushEvict]

lemma addSshResult_ssh_stats (s : TargetStats) (r : SshResult) (C : Nat) :
    (addSshResult s r C).ssh_stats =
      if ((pushEvict C s.ssh_history r).filterMap (fun x => x.connection_time_ms)).isEmpty
      then s.ssh_stats
      else some (calculateStatistics
        ((pushEvict C s.ssh_history r).filterMap (fun x => x.connection_time_ms))
        (pushEvict C s.ssh_history r).length) := by
  simp only [addSshResult, updateSshStats_ssh_stats, pushEvict]

/-- Claim C2 counterexample: two different insertion sequences ending in the
same one-element window (a lone failed ping, capacity 1) leave different
cached `ping_stats` (`none` vs a stale `some`): after an insert that leaves
the window without a successful sample, `ping_stats` is not recomputed from
the current window contents. -/
theorem stats_not_pure_function_of_window :
    (addPingResult (TargetStats.new tFix 1) pingFail 1).ping_history =
      (addPingResult (addPingResult (TargetStats.new tFix 1) pingOk10 1) pingFail 1).ping_history ∧
    (addPingResult (TargetStats.new tFix 1) pingFail 1).ping_stats ≠
      (addPingResult (addPingResult (TargetStats.new tFix 1) pingOk10 1) pingFail 1).ping_stats := by
  constructor
  · rfl
  · have h1 : (addPingResult (TargetStats.new tFix 1) pingFail 1).ping_stats = none := rfl
    have h2 : (addPingResult (addPingResult (TargetStats.new tFix 1) pingOk10 1)
        pingFail 1).ping_stats = some (calculateStatistics [10] 1) := rfl
    rw [h1, h2]
    exact fun h => Option.noConfusion h

/-- Claim C2 (amended): after `add_ping_result` (resp. `add_ssh_result`), if
the resulting window contains at least one successful sample then the cached
stats equal the `Statistics` recomputed from scratch from the current window
(successes as samples, window length as total count); if it contains none,
the cached stats are left exactly as they were before the call (possibly
stale), not recomputed. -/
theorem stats_recompute_on_insert (s : TargetStats) (r : PingResult) (q : SshResult) (C D : Nat) :
    (((addPingResult s r C).ping_history.filterMap (fun x => x.latency_ms) ≠ [] →
        (addPingResult s r C).ping_stats =
          some (calculateStatistics
            ((addPingResult s r C).ping_history.filterMap (fun x => x.latency_ms))
            (addPingResult s r C).ping_history.length)) ∧
      ((addPingResult s r C).ping_history.filterMap (fun x => x.latency_ms) = [] →
        (addPingResult s r C).ping_stats = s.ping_stats)) ∧
    (((addSshResult s q D).ssh_history.filterMap (fun x => x.connection_time_ms) ≠ [] →
        (addSshResult s q D).ssh_stats =
          some (calculateStatistics
            ((addSshResult s q D).ssh_history.filterMap (fun x => x.connection_time_ms))
            (addSshResult s q D).ssh_history.length)) ∧
      ((addSshResult s q D).ssh_history.filterMap (fun x => x.connection_time_ms) = [] →
        (addSshResult s q D).ssh_stats = s.ssh_stats)) := by
  constructor
  · rw [addPingResult_ping_history s r C, addPingResult_ping_stats s r C]
    constructor
    · intro hne
      rw [if_neg (by simpa [List.isEmpty_iff] using hne)]
    · intro he
      rw [if_pos (by simpa [List.isEmpty_iff] using he)]
  · rw [addSshResult_ssh_history s q D, addSshResult_ssh_stats s q D]
    constructor
    · intro hne
      rw [if_neg (by simpa [List.isEmpty_iff] using hne)]
    · intro he
      rw [if_pos (by simpa [List.isEmpty_iff] using he)]

/-- Witness for `stats_recompute_on_insert`: inserting a successful ping
(resp. SSH) result into a fresh target recomputes the cached stats from the
new one-element window. -/
theorem stats_recompute_on_insert_witness :
    (addPingResult (TargetStats.new tFix 3) pingOk10 3).ping_stats =
      some (calculateStatistics
        ((addPingResult (TargetStats.new tFix 3) pingOk10 3).ping_history.filterMap
          (fun x => x.latency_ms))
        (addPingResult (TargetStats.new tFix 3) pingOk10 3).ping_history.length) ∧
    (addSshResult (TargetStats.new tFix 3) sshOk7 3).ssh_stats =
      some (calculateStatistics
        ((addSshResult (TargetStats.new tFix 3) sshOk7 3).ssh_history.filterMap
          (fun x => x.connection_time_ms))
        (addSshResult (TargetStats.new tFix 3) sshOk7 3).ssh_history.length) :=
  ⟨(stats_recompute_on_insert (TargetStats.new tFix 3) pingOk10 sshOk7 3 3).1.1 (by decide),
   (stats_recompute_on_insert (TargetStats.new tFix 3) pingOk10 sshOk7 3 3).2.1 (by decide)⟩

lemma foldl_sshFold_get?_ne (hs : Nat) (i : Nat) :
    ∀ (handles : List (Nat × Option SshResult)) (acc : List TargetStats),
      (∀ p ∈ handles, p.1 ≠ i) →
      (handles.foldl (fun acc p =>
        match p.2 with
        | some r => acc.modify (fun ts => addSshResult ts r hs) p.1
        | none => acc) acc)[i]? = acc[i]?
  | [], acc, _ => rfl
  | p :: ps, acc, hne => by
    have hp : p.1 ≠ i := hne p (List.mem_cons_self p ps)
    have hps : ∀ q ∈ ps, q.1 ≠ i := fun q hq => hne q (List.mem_cons_of_mem p hq)
    rw [List.foldl_cons, foldl_sshFold_get?_ne hs i ps _ hps]
    obtain ⟨j, o⟩ := p
    cases o with
    | none => rfl
    | some r => exact List.getElem?_modify_ne _ acc hp

lemma mem_sshHandles_fst_iff (targets : List TargetStats) (env : Nat → SshEnv)
    (i : Nat) (hi : i < targets.length) :
    i ∈ (sshHandles targets env).map Prod.fst ↔
      sshEligible (targets.get ⟨i, hi⟩).target = true := by
  constructor
  · intro hmem
    rcases List.mem_map.mp hmem with ⟨p, hp, hfst⟩
    rcases List.mem_map.mp hp with ⟨q, hq, hpq⟩
    rcases List.mem_filter.mp hq with ⟨henum, helig⟩
    have hq1 : q.1 = i := by
      rw [← hfst, ← hpq]
    have hget : targets.get? q.1 = some q.2 := List.mem_enum_iff_get?.mp henum
    rw [hq1, List.get?_eq_get hi] at hget
    have : q.2 = targets.get ⟨i, hi⟩ := (Option.some.injEq _ _).mp hget.symm
    rw [← this]
    exact helig
  · intro helig
    apply List.mem_map.mpr
    refine ⟨(i, sshTest (env i)), ?_, rfl⟩
    apply List.mem_map.mpr
    refine ⟨(i, targets.get ⟨i, hi⟩), ?_, rfl⟩
    apply List.mem_filter.mpr
    exact ⟨List.mem_enum_iff_get?.mpr (List.get?_eq_get hi), helig⟩

/-- Claim C8: in an SSH cycle, target `i` is issued an SSH probe (appears
among the spawned handles) iff both its `ssh_port` and `ssh_user` are
present; a target lacking either field is left completely unchanged by
`run_ssh_cycle`. -/
theorem ssh_cycle_eligibility (targets : List TargetStats) (env : Nat → SshEnv) (hs : Nat)
    (i : Nat) (hi : i < targets.length) :
    (sshEligible (targets.get ⟨i, hi⟩).target = true ↔
      i ∈ (sshHandles targets env).map Prod.fst) ∧
    (sshEligible (targets.get ⟨i, hi⟩).target = false →
      (runSshCycle targets env hs)[i]? = targets[i]?) := by
  constructor
  · exact (mem_sshHandles_fst_iff targets env i hi).symm
  · intro hne
    apply foldl_sshFold_get?_ne
    intro p hp hpi
    have : i ∈ (sshHandles targets env).map Prod.fst :=
      List.mem_map.mpr ⟨p, hp, hpi⟩
    rw [mem_sshHandles_fst_iff targets env i hi, hne] at this
    exact Bool.false_ne_true this

/-- Witness for `ssh_cycle_eligibility` on a concrete two-target state:
the SSH-eligible target 0 is issued a probe, and the ineligible target 1 is
unchanged by the cycle. -/
theorem ssh_cycle_eligibility_witness :
    0 ∈ (sshHandles targetsFix envGFix).map Prod.fst ∧
    (runSshCycle targetsFix envGFix 5)[1]? = targetsFix[1]? :=
  ⟨(ssh_cycle_eligibility targetsFix envGFix 5 0 (by decide)).1.mp (by decide),
   (ssh_cycle_eligibility targetsFix envGFix 5 1 (by decide)).2 (by decide)⟩

lemma insertSorted_length (x : ℚ) : ∀ l : List ℚ, (insertSorted x l).length = l.length + 1
  | [] => rfl
  | y :: ys => by
    simp only [insertSorted]
    split
    · rfl
    · simp [insertSorted_length x ys]

lemma sortAsc_length : ∀ l : List ℚ, (sortAsc l).length = l.length
  | [] => rfl
  | x :: xs => by simp [sortAsc, insertSorted_length, sortAsc_length xs]

/-- Claim C3: the source's `percentile` on the sorted samples agrees with the
reference definition from the spec for every sample list and every `p`, and
in particular `percentile([10,20,30,40], 50) = 25`. -/
theorem percentile_matches_reference :
    (∀ (values : List ℚ) (p : ℚ), percentile (sortAsc values) p = percentileRef values p) ∧
    percentile [10, 20, 30, 40] 50 = 25 := by
  constructor
  · intro values p
    match values with
    | [] => rfl
    | [x] => rfl
    | x :: y :: rest =>
      have hslen : (sortAsc (x :: y :: rest)).length = rest.length + 2 := by
        rw [sortAsc_length]
        simp
      have hsne : sortAsc (x :: y :: rest) ≠ [] := by
        intro h
        rw [h] at hslen
        simp at hslen
      have hs1 : ¬((sortAsc (x :: y :: rest)).length = 1) := by omega
      have hn0 : ¬((x :: y :: rest).length = 0) := by simp
      have hn1 : ¬((x :: y :: rest).length = 1) := by simp
      simp only [percentile, percentileRef]
      rw [if_neg hsne, if_neg hs1, if_neg hn0, if_neg hn1, sortAsc_length]
      set rank : ℚ := (p / 100) * (((x :: y :: rest).length : ℚ) - 1) with hrankdef
      by_cases hint : (⌊rank⌋ : ℚ) = rank
      · have hceil : ⌈rank⌉ = ⌊rank⌋ := by
          conv_lhs => rw [← hint]
          exact Int.ceil_intCast _
        rw [if_pos hint, hceil, if_pos rfl]
      · rw [if_neg hint]
        have hfr : Int.fract rank ≠ 0 := by
          rw [Int.fract]
          intro h
          exact hint (sub_eq_zero.mp h).symm
        have hceil : ⌈rank⌉ = ⌊rank⌋ + 1 := by
          have h2 : (⌈rank⌉ : ℚ) = (⌊rank⌋ : ℚ) + 1 := by
            rw [Int.ceil_eq_add_one_sub_fract hfr, Int.fract]
            ring
          exact_mod_cast h2
        by_cases hpos : 0 ≤ ⌊rank⌋
        · have hne2 : (⌊rank⌋).toNat ≠ (⌈rank⌉).toNat := by omega
          rw [if_neg hne2]
          have hcast : (((⌊rank⌋).toNat : ℚ)) = ((⌊rank⌋ : ℤ) : ℚ) := by
            exact_mod_cast congrArg (fun z : ℤ => (z : ℚ)) (Int.toNat_of_nonneg hpos)
          rw [hcast]
        · have heq : (⌊rank⌋).toNat = (⌈rank⌉).toNat := by omega
          rw [if_pos heq, heq]
          have h0 : (⌈rank⌉).toNat = 0 := by omega
          rw [h0]
          ring
  · have hne : ([10, 20, 30, 40] : List ℚ) ≠ [] := by simp
    have h1 : ¬(([10, 20, 30, 40] : List ℚ).length = 1) := by simp
    simp only [percentile]
    rw [if_neg hne, if_neg h1]
    have hidx : ((50 : ℚ) / 100) * (((([10, 20, 30, 40] : List ℚ).length) : ℚ) - 1) = 3 / 2 := by
      norm_num
    rw [hidx]
    have hf : ⌊(3 / 2 : ℚ)⌋ = 1 := by
      rw [Int.floor_eq_iff]
      norm_num
    have hc : ⌈(3 / 2 : ℚ)⌉ = 2 := by
      rw [Int.ceil_eq_iff]
      norm_num
    rw [hf, hc]
    rw [if_neg (by decide)]
    simp only [show ((1 : ℤ)).toNat = 1 from rfl, show ((2 : ℤ)).toNat = 2 from rfl,
      List.getD_cons_succ, List.getD_cons_zero]
    norm_num

lemma calculateStatistics_fields (values : List ℚ) (T : Nat) :
    (calculateStatistics values T).success_rate = ((values.length : ℚ) / (T : ℚ)) * 100 ∧
    (calculateStatistics values T).total_count = T ∧
    (calculateStatistics values T).mean = values.sum / (values.length : ℚ) ∧
    (calculateStatistics values T).median = percentile (sortAsc values) 50 ∧
    (calculateStatistics values T).min = (sortAsc values).headD 0 ∧
    (calculateStatistics values T).max = (sortAsc values).getLastD 0 ∧
    (calculateStatistics values T).p25 = percentile (sortAsc values) 25 ∧
    (calculateStatistics values T).p75 = percentile (sortAsc values) 75 ∧
    (calculateStatistics values T).p90 = percentile (sortAsc values) 90 ∧
    (calculateStatistics values T).p95 = percentile (sortAsc values) 95 ∧
    (calculateStatistics values T).p99 = percentile (sortAsc values) 99 :=
  ⟨rfl, rfl, rfl, rfl, rfl, rfl, rfl, rfl, rfl, rfl, rfl⟩

/-- Claim C4: whenever the window after an insert has at least one successful
sample, the cached `Statistics` has `success_rate = (S/T)·100` with `T` the
full window length (failures included) and `S` the number of successful
samples, `total_count = T`, and mean/median/min/max and every percentile
computed from the successful samples only. -/
theorem statistics_success_rate_and_fields (s : TargetStats) (r : PingResult) (q : SshResult)
    (C D : Nat) :
    ((addPingResult s r C).ping_history.filterMap (fun x => x.latency_ms) ≠ [] →
      ∃ st : Statistics, (addPingResult s r C).ping_stats = some st ∧
        st.success_rate =
          ((((addPingResult s r C).ping_history.filterMap (fun x => x.latency_ms)).length : ℚ) /
            ((addPingResult s r C).ping_history.length : ℚ)) * 100 ∧
        st.total_count = (addPingResult s r C).ping_history.length ∧
        st.mean = ((addPingResult s r C).ping_history.filterMap (fun x => x.latency_ms)).sum /
          ((((addPingResult s r C).ping_history.filterMap (fun x => x.latency_ms)).length : ℚ)) ∧
        st.median = percentile
          (sortAsc ((addPingResult s r C).ping_history.filterMap (fun x => x.latency_ms))) 50 ∧
        st.min =
          (sortAsc ((addPingResult s r C).ping_history.filterMap (fun x => x.latency_ms))).headD 0 ∧
        st.max =
          (sortAsc ((addPingResult s r C).ping_history.filterMap (fun x => x.latency_ms))).getLastD 0 ∧
        st.p25 = percentile
          (sortAsc ((addPingResult s r C).ping_history.filterMap (fun x => x.latency_ms))) 25 ∧
        st.p75 = percentile
          (sortAsc ((addPingResult s r C).ping_history.filterMap (fun x => x.latency_ms))) 75 ∧
        st.p90 = percentile
          (sortAsc ((addPingResult s r C).ping_history.filterMap (fun x => x.latency_ms))) 90 ∧
        st.p95 = percentile
          (sortAsc ((addPingResult s r C).ping_history.filterMap (fun x => x.latency_ms))) 95 ∧
        st.p99 = percentile
          (sortAsc ((addPingResult s r C).ping_history.filterMap (fun x => x.latency_ms))) 99) ∧
    ((addSshResult s q D).ssh_history.filterMap (fun x => x.connection_time_ms) ≠ [] →
      ∃ st : Statistics, (addSshResult s q D).ssh_stats = some st ∧
        st.success_rate =
          ((((addSshResult s q D).ssh_history.filterMap (fun x => x.connection_time_ms)).length : ℚ) /
            ((addSshResult s q D).ssh_history.length : ℚ)) * 100 ∧
        st.total_count = (addSshResult s q D).ssh_history.length) := by
  constructor
  · intro hne
    rw [addPingResult_ping_history] at hne ⊢
    refine ⟨calculateStatistics
      ((pushEvict C s.ping_history r).filterMap (fun x => x.latency_ms))
      (pushEvict C s.ping_history r).length, ?_, ?_⟩
    · rw [addPingResult_ping_stats, if_neg (by simpa [List.isEmpty_iff] using hne)]
    · exact calculateStatistics_fields _ _
  · intro hne
    rw [addSshResult_ssh_history] at hne ⊢
    refine ⟨calculateStatistics
      ((pushEvict D s.ssh_history q).filterMap (fun x => x.connection_time_ms))
      (pushEvict D s.ssh_history q).length, ?_, ?_, ?_⟩
    · rw [addSshResult_ssh_stats, if_neg (by simpa [List.isEmpty_iff] using hne)]
    · exact (calculateStatistics_fields _ _).1
    · exact (calculateStatistics_fields _ _).2.1

/-- Witness for `statistics_success_rate_and_fields`: inserting one
successful ping (resp. SSH) result into a fresh target yields cached stats
satisfying the success-rate and total-count formulas for that window. -/
theorem statistics_success_rate_and_fields_witness :
    (∃ st : Statistics, (addPingResult (TargetStats.new tFix 3) pingOk10 3).ping_stats = some st ∧
      st.success_rate =
        ((((addPingResult (TargetStats.new tFix 3) pingOk10 3).ping_history.filterMap
            (fun x => x.latency_ms)).length : ℚ) /
          (((addPingResult (TargetStats.new tFix 3) pingOk10 3).ping_history.length : ℚ))) * 100 ∧
      st.total_count = (addPingResult (TargetStats.new tFix 3) pingOk10 3).ping_history.length ∧
      st.mean = ((addPingResult (TargetStats.new tFix 3) pingOk10 3).ping_history.filterMap
          (fun x => x.latency_ms)).sum /
        ((((addPingResult (TargetStats.new tFix 3) pingOk10 3).ping_history.filterMap
          (fun x => x.latency_ms)).length : ℚ)) ∧
      st.median = percentile (sortAsc ((addPingResult (TargetStats.new tFix 3)
        pingOk10 3).ping_history.filterMap (fun x => x.latency_ms))) 50 ∧
      st.min = (sortAsc ((addPingResult (TargetStats.new tFix 3) pingOk10 3).ping_history.filterMap
        (fun x => x.latency_ms))).headD 0 ∧
      st.max = (sortAsc ((addPingResult (TargetStats.new tFix 3) pingOk10 3).ping_history.filterMap
        (fun x => x.latency_ms))).getLastD 0 ∧
      st.p25 = percentile (sortAsc ((addPingResult (TargetStats.new tFix 3)
        pingOk10 3).ping_history.filterMap (fun x => x.latency_ms))) 25 ∧
      st.p75 = percentile (sortAsc ((addPingResult (TargetStats.new tFix 3)
        pingOk10 3).ping_history.filterMap (fun x => x.latency_ms))) 75 ∧
      st.p90 = percentile (sortAsc ((addPingResult (TargetStats.new tFix 3)
        pingOk10 3).ping_history.filterMap (fun x => x.latency_ms))) 90 ∧
      st.p95 = percentile (sortAsc ((addPingResult (TargetStats.new tFix 3)
        pingOk10 3).ping_history.filterMap (fun x => x.latency_ms))) 95 ∧
      st.p99 = percentile (sortAsc ((addPingResult (TargetStats.new tFix 3)
        pingOk10 3).ping_history.filterMap (fun x => x.latency_ms))) 99) ∧
    (∃ st : Statistics, (addSshResult (TargetStats.new tFix 3) sshOk7 3).ssh_stats = some st ∧
      st.success_rate =
        ((((addSshResult (TargetStats.new tFix 3) sshOk7 3).ssh_history.filterMap
            (fun x => x.connection_time_ms)).length : ℚ) /
          (((addSshResult (TargetStats.new tFix 3) sshOk7 3).ssh_history.length : ℚ))) * 100 ∧
      st.total_count = (addSshResult (TargetStats.new tFix 3) sshOk7 3).ssh_history.length) :=
  ⟨(statistics_success_rate_and_fields (TargetStats.new tFix 3) pingOk10 sshOk7 3 3).1 (by decide),
   (statistics_success_rate_and_fields (TargetStats.new tFix 3) pingOk10 sshOk7 3 3).2 (by decide)⟩
